import Mathlib

/-!
Verification of the threshold-calibration core of a weather-prediction
service (`api_server.py`).

The embedded code is the per-condition decision-threshold search
(the `best_thresh` loop), the final metric computation at the selected
threshold, the inference-time binarization/confidence rule of the
`/predict` endpoint, and the `calculate_heat_index` feature function.
Probabilities, thresholds and metric values are modelled as rationals;
labels and binarized predictions as booleans (`true` = class 1).
-/

/-- Binarization from the source: `preds = (probs >= t).astype(int)`:
`preds[i] = 1` iff `probs[i] >= t`. -/
def binarize (probs : List ℚ) (t : ℚ) : List Bool :=
  probs.map (fun p => if t ≤ p then true else false)

/-- Number of true positives of a prediction vector against the labels. -/
def countTP (labels preds : List Bool) : ℕ :=
  ((labels.zip preds).filter (fun lp => lp.1 && lp.2)).length

/-- Number of positive labels. -/
def countPos (labels : List Bool) : ℕ :=
  (labels.filter (fun l => l)).length

/-- Number of positive predictions. -/
def countPredPos (preds : List Bool) : ℕ :=
  (preds.filter (fun p => p)).length

/-- `sklearn.metrics.recall_score(labels, preds, zero_division=0)`:
TP / (number of positive labels), and 0 when there is no positive label. -/
def recall_score (labels preds : List Bool) : ℚ :=
  if countPos labels = 0 then 0
  else (countTP labels preds : ℚ) / (countPos labels : ℚ)

/-- `sklearn.metrics.precision_score(labels, preds, zero_division=0)`:
TP / (number of positive predictions), and 0 when nothing is predicted
positive. -/
def precision_score (labels preds : List Bool) : ℚ :=
  if countPredPos preds = 0 then 0
  else (countTP labels preds : ℚ) / (countPredPos preds : ℚ)

/-- `sklearn.metrics.accuracy_score(labels, preds)`: fraction of agreeing
positions. -/
def accuracy_score (labels preds : List Bool) : ℚ :=
  if labels.length = 0 then 0
  else (((labels.zip preds).filter (fun lp => lp.1 == lp.2)).length : ℚ) /
    (labels.length : ℚ)

/-- `sklearn.metrics.f1_score(labels, preds, zero_division=0)`, in the
form 2·TP / (P + PP). -/
def f1_score (labels preds : List Bool) : ℚ :=
  if countPos labels + countPredPos preds = 0 then 0
  else (2 * countTP labels preds : ℚ) /
    ((countPos labels + countPredPos preds : ℕ) : ℚ)

/-- Eligibility test of the source: `len(np.unique(preds)) > 1`, i.e. the
predictions contain both classes. -/
def bothClasses (preds : List Bool) : Bool :=
  preds.contains true && preds.contains false

/-- The search objective of the source: `score = rec * 0.6 + prec * 0.4`
evaluated on the predictions binarized at `t`. -/
def scoreAt (probs : List ℚ) (labels : List Bool) (t : ℚ) : ℚ :=
  recall_score labels (binarize probs t) * (6/10) +
    precision_score labels (binarize probs t) * (4/10)

/-- Running state of the threshold scan: `best_thresh`, `best_score`. -/
structure SearchState where
  best_thresh : ℚ
  best_score : ℚ

/-- One iteration of the `for t in thresh_range` loop of the source:
skip `t` unless the binarized predictions contain both classes, compute
recall and precision with `zero_division=0`, and update the running best
on strict improvement `score > best_score`. -/
def stepThresh (probs : List ℚ) (labels : List Bool)
    (st : SearchState) (t : ℚ) : SearchState :=
  let preds := binarize probs t
  if bothClasses preds then
    let r := recall_score labels preds
    let p := precision_score labels preds
    let score := r * (6/10) + p * (4/10)
    if st.best_score < score then ⟨t, score⟩ else st
  else st

/-- The whole scan, started from `best_thresh = 0.5`, `best_score = 0`. -/
def runSearch (probs : List ℚ) (labels : List Bool) (grid : List ℚ) :
    SearchState :=
  grid.foldl (stepThresh probs labels) ⟨1/2, 0⟩

/-- The per-condition record stored by the source after calibration. -/
structure CalibrationResult where
  threshold : ℚ
  accuracy : ℚ
  precision : ℚ
  «recall» : ℚ
  f1 : ℚ

/-- The calibration routine of the source: run the threshold scan, then
binarize the probabilities one final time at the selected threshold and
compute accuracy / precision / recall / f1 over the full set. -/
def calibrate (probs : List ℚ) (labels : List Bool) (grid : List ℚ) :
    CalibrationResult :=
  let st := runSearch probs labels grid
  let final_preds := binarize probs st.best_thresh
  { threshold := st.best_thresh
    accuracy := accuracy_score labels final_preds
    precision := precision_score labels final_preds
    «recall» := recall_score labels final_preds
    f1 := f1_score labels final_preds }

/-- Inference-time label of the `/predict` endpoint:
`prediction = int(prob >= thresh)`. -/
def predictedLabel (prob thresh : ℚ) : ℕ :=
  if thresh ≤ prob then 1 else 0

/-- Inference-time confidence of the `/predict` endpoint:
`min(abs(prob - thresh) / max(thresh, 0.1), 1.0)`. -/
def confidenceOf (prob thresh : ℚ) : ℚ :=
  min (|prob - thresh| / max thresh (1/10)) 1

/-- `calculate_heat_index` of the source: identity below 80 °F, otherwise
the Rothfusz regression. -/
def calculate_heat_index (temp_f humidity : ℚ) : ℚ :=
  if temp_f < 80 then temp_f
  else
    (-42.379) + 2.04901523 * temp_f + 10.14333127 * humidity +
      (-0.22475541) * temp_f * humidity +
      (-6.83783e-3) * temp_f * temp_f +
      (-5.481717e-2) * humidity * humidity +
      1.22874e-3 * temp_f * temp_f * humidity +
      8.5282e-4 * temp_f * humidity * humidity +
      (-1.99e-6) * temp_f * temp_f * humidity * humidity

/-! ### Basic facts about the scan -/

/-- Unfolded form of one scan step. -/
lemma stepThresh_eq (probs : List ℚ) (labels : List Bool)
    (st : SearchState) (t : ℚ) :
    stepThresh probs labels st t =
      if bothClasses (binarize probs t) then
        (if st.best_score < scoreAt probs labels t then
          ⟨t, scoreAt probs labels t⟩ else st)
      else st := rfl

/-- `runSearch` is the fold of `stepThresh` from the default state. -/
lemma runSearch_eq_foldl (probs : List ℚ) (labels : List Bool) (grid : List ℚ) :
    runSearch probs labels grid =
      grid.foldl (stepThresh probs labels) ⟨1/2, 0⟩ := rfl

/-- The returned threshold is the scan state's best threshold. -/
lemma calibrate_threshold (probs : List ℚ) (labels : List Bool) (grid : List ℚ) :
    (calibrate probs labels grid).threshold =
      (runSearch probs labels grid).best_thresh := rfl

/-- One step never decreases the running best score. -/
lemma best_score_le_stepThresh (probs : List ℚ) (labels : List Bool)
    (st : SearchState) (t : ℚ) :
    st.best_score ≤ (stepThresh probs labels st t).best_score := by
  rw [stepThresh_eq]
  by_cases hb : bothClasses (binarize probs t) = true
  · by_cases hlt : st.best_score < scoreAt probs labels t
    · simp [hb, hlt]
      exact le_of_lt hlt
    · simp [hb, hlt]
  · simp [hb]

/-- The scan never decreases the running best score. -/
lemma best_score_le_foldl (probs : List ℚ) (labels : List Bool) :
    ∀ (grid : List ℚ) (st : SearchState),
      st.best_score ≤ (grid.foldl (stepThresh probs labels) st).best_score := by
  intro grid
  induction grid with
  | nil => intro st; exact le_refl _
  | cons a rest ih =>
    intro st
    rw [List.foldl_cons]
    exact le_trans (best_score_le_stepThresh probs labels st a) (ih _)

/-- If every eligible grid threshold scores no better than the running
best, the scan leaves the state unchanged. -/
lemma foldl_no_update (probs : List ℚ) (labels : List Bool) :
    ∀ (grid : List ℚ) (st : SearchState),
      (∀ t ∈ grid, bothClasses (binarize probs t) = true →
        scoreAt probs labels t ≤ st.best_score) →
      grid.foldl (stepThresh probs labels) st = st := by
  intro grid
  induction grid with
  | nil => intro st _; rfl
  | cons a rest ih =>
    intro st h
    have hstep : stepThresh probs labels st a = st := by
      rw [stepThresh_eq]
      by_cases hb : bothClasses (binarize probs a) = true
      · have hle := h a (List.mem_cons_self a rest) hb
        simp [hb, not_lt.mpr hle]
      · simp [hb]
    rw [List.foldl_cons, hstep]
    exact ih st (fun t ht hbt => h t (List.mem_cons_of_mem a ht) hbt)

/-- The final best score dominates the score of every eligible grid
threshold. -/
lemma foldl_score_dominates (probs : List ℚ) (labels : List Bool) :
    ∀ (grid : List ℚ) (st : SearchState) (t : ℚ), t ∈ grid →
      bothClasses (binarize probs t) = true →
      scoreAt probs labels t ≤
        (grid.foldl (stepThresh probs labels) st).best_score := by
  intro grid
  induction grid with
  | nil => intro st t ht; exact absurd ht (List.not_mem_nil t)
  | cons a rest ih =>
    intro st t ht hbt
    rw [List.foldl_cons]
    rcases List.mem_cons.mp ht with rfl | hrest
    · refine le_trans ?_ (best_score_le_foldl probs labels rest _)
      rw [stepThresh_eq]
      by_cases hlt : st.best_score < scoreAt probs labels t
      · simp [hbt, hlt]
      · simp [hbt, hlt]
        exact not_lt.mp hlt
    · exact ih _ t hrest hbt

/-- Provenance of the scan state: either nothing was ever updated, or the
final best threshold is an eligible grid element whose score is the best
score, strictly above the starting score. -/
lemma foldl_provenance (probs : List ℚ) (labels : List Bool) :
    ∀ (grid : List ℚ) (st : SearchState),
      grid.foldl (stepThresh probs labels) st = st ∨
      ((grid.foldl (stepThresh probs labels) st).best_thresh ∈ grid ∧
       bothClasses (binarize probs
         (grid.foldl (stepThresh probs labels) st).best_thresh) = true ∧
       (grid.foldl (stepThresh probs labels) st).best_score =
         scoreAt probs labels
           (grid.foldl (stepThresh probs labels) st).best_thresh ∧
       st.best_score < (grid.foldl (stepThresh probs labels) st).best_score) := by
  intro grid
  induction grid with
  | nil => intro st; exact Or.inl rfl
  | cons a rest ih =>
    intro st
    rw [List.foldl_cons]
    by_cases hb : bothClasses (binarize probs a) = true
    · by_cases hlt : st.best_score < scoreAt probs labels a
      · have hstep : stepThresh probs labels st a =
            ⟨a, scoreAt probs labels a⟩ := by
          rw [stepThresh_eq]; simp [hb, hlt]
        rw [hstep]
        rcases ih ⟨a, scoreAt probs labels a⟩ with heq | ⟨hmem, hb2, hsc, hlt2⟩
        · rw [heq]
          exact Or.inr ⟨List.mem_cons_self a rest, hb, rfl, hlt⟩
        · exact Or.inr ⟨List.mem_cons_of_mem a hmem, hb2, hsc,
            lt_trans hlt hlt2⟩
      · have hstep : stepThresh probs labels st a = st := by
          rw [stepThresh_eq]; simp [hb, hlt]
        rw [hstep]
        rcases ih st with heq | ⟨hmem, hb2, hsc, hlt2⟩
        · exact Or.inl heq
        · exact Or.inr ⟨List.mem_cons_of_mem a hmem, hb2, hsc, hlt2⟩
    · have hstep : stepThresh probs labels st a = st := by
        rw [stepThresh_eq]; simp [hb]
      rw [hstep]
      rcases ih st with heq | ⟨hmem, hb2, hsc, hlt2⟩
      · exact Or.inl heq
      · exact Or.inr ⟨List.mem_cons_of_mem a hmem, hb2, hsc, hlt2⟩

/-- With strict-improvement updates over an ascending grid, the scan ends
at the earliest eligible threshold attaining the maximal score, provided
that score beats the starting state. -/
lemma foldl_first_max (probs : List ℚ) (labels : List Bool) (t1 : ℚ) :
    ∀ (grid : List ℚ) (st : SearchState),
      grid.Sorted (· ≤ ·) →
      t1 ∈ grid →
      bothClasses (binarize probs t1) = true →
      st.best_score < scoreAt probs labels t1 →
      (∀ t ∈ grid, bothClasses (binarize probs t) = true →
        scoreAt probs labels t ≤ scoreAt probs labels t1) →
      (∀ t ∈ grid, bothClasses (binarize probs t) = true →
        scoreAt probs labels t = scoreAt probs labels t1 → t1 ≤ t) →
      grid.foldl (stepThresh probs labels) st =
        ⟨t1, scoreAt probs labels t1⟩ := by
  intro grid
  induction grid with
  | nil => intro st _ ht1; exact absurd ht1 (List.not_mem_nil t1)
  | cons a rest ih =>
    intro st hsort ht1 hb1 hst hmax hfirst
    rw [List.foldl_cons]
    by_cases hb : bothClasses (binarize probs a) = true
    · by_cases hlt : st.best_score < scoreAt probs labels a
      · have hstep : stepThresh probs labels st a =
            ⟨a, scoreAt probs labels a⟩ := by
          rw [stepThresh_eq]; simp [hb, hlt]
        rw [hstep]
        by_cases heq : scoreAt probs labels a = scoreAt probs labels t1
        · have hta : t1 ≤ a := hfirst a (List.mem_cons_self a rest) hb heq
          have hat : a ≤ t1 := by
            rcases List.mem_cons.mp ht1 with h | hr
            · exact le_of_eq h.symm
            · exact (List.sorted_cons.mp hsort).1 t1 hr
          have haa : a = t1 := le_antisymm hat hta
          have hnu : rest.foldl (stepThresh probs labels)
              ⟨a, scoreAt probs labels a⟩ = ⟨a, scoreAt probs labels a⟩ :=
            foldl_no_update probs labels rest _ (by
              intro t ht hbt
              show scoreAt probs labels t ≤ scoreAt probs labels a
              rw [heq]
              exact hmax t (List.mem_cons_of_mem a ht) hbt)
          rw [hnu, haa]
        · have hlt2 : scoreAt probs labels a < scoreAt probs labels t1 :=
            lt_of_le_of_ne (hmax a (List.mem_cons_self a rest) hb) heq
          have ht1r : t1 ∈ rest := by
            rcases List.mem_cons.mp ht1 with h | hr
            · exact absurd (congrArg (scoreAt probs labels) h.symm) heq
            · exact hr
          exact ih ⟨a, scoreAt probs labels a⟩ (List.sorted_cons.mp hsort).2
            ht1r hb1 hlt2
            (fun t ht hbt => hmax t (List.mem_cons_of_mem a ht) hbt)
            (fun t ht hbt he => hfirst t (List.mem_cons_of_mem a ht) hbt he)
      · have hstep : stepThresh probs labels st a = st := by
          rw [stepThresh_eq]; simp [hb, hlt]
        rw [hstep]
        have ht1r : t1 ∈ rest := by
          rcases List.mem_cons.mp ht1 with h | hr
          · subst h; exact absurd hst hlt
          · exact hr
        exact ih st (List.sorted_cons.mp hsort).2 ht1r hb1 hst
          (fun t ht hbt => hmax t (List.mem_cons_of_mem a ht) hbt)
          (fun t ht hbt he => hfirst t (List.mem_cons_of_mem a ht) hbt he)
    · have hstep : stepThresh probs labels st a = st := by
        rw [stepThresh_eq]; simp [hb]
      rw [hstep]
      have ht1r : t1 ∈ rest := by
        rcases List.mem_cons.mp ht1 with h | hr
        · subst h; exact absurd hb1 hb
        · exact hr
      exact ih st (List.sorted_cons.mp hsort).2 ht1r hb1 hst
        (fun t ht hbt => hmax t (List.mem_cons_of_mem a ht) hbt)
        (fun t ht hbt he => hfirst t (List.mem_cons_of_mem a ht) hbt he)

/-! ### Facts about degenerate labels -/

/-- An all-negative label list has no positive labels. -/
lemma countPos_eq_zero (labels : List Bool) (h : ∀ l ∈ labels, l = false) :
    countPos labels = 0 := by
  unfold countPos
  rw [List.length_eq_zero, List.filter_eq_nil_iff]
  intro a ha
  simp [h a ha]

/-- Without positive labels there are no true positives. -/
lemma countTP_eq_zero (labels preds : List Bool) (h : ∀ l ∈ labels, l = false) :
    countTP labels preds = 0 := by
  unfold countTP
  rw [List.length_eq_zero, List.filter_eq_nil_iff]
  intro lp hlp
  have h1 : lp.1 ∈ labels := (List.of_mem_zip hlp).1
  simp [h lp.1 h1]

/-- Recall is reported as 0 (not an error) on an all-negative label list. -/
lemma recall_zero_of_no_pos (labels preds : List Bool)
    (h : ∀ l ∈ labels, l = false) :
    recall_score labels preds = 0 := by
  unfold recall_score
  rw [if_pos (countPos_eq_zero labels h)]

/-- Precision is reported as 0 (not an error) on an all-negative label
list. -/
lemma precision_zero_of_no_pos (labels preds : List Bool)
    (h : ∀ l ∈ labels, l = false) :
    precision_score labels preds = 0 := by
  unfold precision_score
  by_cases hp : countPredPos preds = 0
  · rw [if_pos hp]
  · rw [if_neg hp, countTP_eq_zero labels preds h]
    simp

/-! ### Monotonicity of the counts -/

/-- Unfolding `countTP` over a cons cell. -/
lemma countTP_cons (l : Bool) (ls : List Bool) (b : Bool) (bs : List Bool) :
    countTP (l :: ls) (b :: bs) = (if l && b then 1 else 0) + countTP ls bs := by
  unfold countTP
  rw [List.zip_cons_cons, List.filter_cons]
  by_cases h : (l && b) = true
  · simp [h]
    omega
  · simp [h]

/-- Raising the threshold can only lose true positives. -/
lemma countTP_binarize_anti (t1 t2 : ℚ) (h : t1 ≤ t2) :
    ∀ (labels : List Bool) (probs : List ℚ),
      countTP labels (binarize probs t2) ≤ countTP labels (binarize probs t1) := by
  intro labels
  induction labels with
  | nil => intro probs; simp [countTP]
  | cons l ls ih =>
    intro probs
    cases probs with
    | nil => simp [countTP, binarize]
    | cons p ps =>
      rw [show binarize (p :: ps) t2 =
            (if t2 ≤ p then true else false) :: binarize ps t2 from rfl,
          show binarize (p :: ps) t1 =
            (if t1 ≤ p then true else false) :: binarize ps t1 from rfl,
          countTP_cons, countTP_cons]
      refine Nat.add_le_add ?_ (ih ps)
      by_cases h2 : t2 ≤ p
      · have h1 : t1 ≤ p := le_trans h h2
        simp [h1, h2]
      · simp [h2]

/-! ### The claims -/

/-- Claim C1: for every evaluation set (probabilities with same-length
labels) and every non-empty ascending grid, the calibration returns a
grid threshold maximizing `0.6*recall + 0.4*precision` among the
thresholds whose binarized predictions contain both classes; if no such
eligible threshold attains a strictly positive score, the default 0.5 is
returned. -/
theorem calibrate_selects_best (probs : List ℚ) (labels : List Bool)
    (grid : List ℚ) (hne : grid ≠ []) (hasc : grid.Sorted (· ≤ ·))
    (hlen : probs.length = labels.length) :
    ((∀ t ∈ grid, bothClasses (binarize probs t) = true →
        scoreAt probs labels t ≤ 0) →
      (calibrate probs labels grid).threshold = 1/2) ∧
    (∀ t0 ∈ grid, bothClasses (binarize probs t0) = true →
      0 < scoreAt probs labels t0 →
      (calibrate probs labels grid).threshold ∈ grid ∧
      bothClasses (binarize probs (calibrate probs labels grid).threshold) =
        true ∧
      0 < scoreAt probs labels (calibrate probs labels grid).threshold ∧
      (∀ t ∈ grid, bothClasses (binarize probs t) = true →
        scoreAt probs labels t ≤
          scoreAt probs labels (calibrate probs labels grid).threshold)) := by
  constructor
  · intro hall
    rw [calibrate_threshold, runSearch_eq_foldl]
    rcases foldl_provenance probs labels grid ⟨1/2, 0⟩ with heq | ⟨hmem, hb, hsc, hpos⟩
    · rw [heq]
    · exfalso
      have h1 := hall _ hmem hb
      rw [← hsc] at h1
      exact absurd h1 (not_le.mpr hpos)
  · intro t0 ht0 hb0 hpos0
    have hdom := foldl_score_dominates probs labels grid ⟨1/2, 0⟩ t0 ht0 hb0
    have hposbest : (0:ℚ) <
        (grid.foldl (stepThresh probs labels) ⟨1/2, 0⟩).best_score :=
      lt_of_lt_of_le hpos0 hdom
    rcases foldl_provenance probs labels grid ⟨1/2, 0⟩ with heq | ⟨hmem, hb, hsc, _⟩
    · exfalso
      rw [heq] at hposbest
      exact lt_irrefl 0 hposbest
    · rw [calibrate_threshold, runSearch_eq_foldl]
      refine ⟨hmem, hb, ?_, ?_⟩
      · rw [← hsc]
        exact hposbest
      · intro t ht hbt
        rw [← hsc]
        exact foldl_score_dominates probs labels grid ⟨1/2, 0⟩ t ht hbt

/-- Claim C1 witness: a concrete run on which the second branch selects
the single eligible, positively scoring grid threshold. -/
theorem calibrate_selects_best_witness :
    (([(1:ℚ)/2] : List ℚ) ≠ []) ∧ List.Sorted (· ≤ ·) [(1:ℚ)/2] ∧
    ([(9:ℚ)/10, 1/10].length = ([true, false] : List Bool).length) ∧
    ((calibrate [9/10, 1/10] [true, false] [(1:ℚ)/2]).threshold ∈
        ([(1:ℚ)/2] : List ℚ) ∧
      bothClasses (binarize [9/10, 1/10]
        (calibrate [9/10, 1/10] [true, false] [(1:ℚ)/2]).threshold) = true ∧
      0 < scoreAt [9/10, 1/10] [true, false]
        (calibrate [9/10, 1/10] [true, false] [(1:ℚ)/2]).threshold ∧
      (∀ t ∈ ([(1:ℚ)/2] : List ℚ),
        bothClasses (binarize [9/10, 1/10] t) = true →
        scoreAt [9/10, 1/10] [true, false] t ≤
          scoreAt [9/10, 1/10] [true, false]
            (calibrate [9/10, 1/10] [true, false] [(1:ℚ)/2]).threshold)) :=
  ⟨by simp, by simp, rfl,
    (calibrate_selects_best [9/10, 1/10] [true, false] [(1:ℚ)/2]
      (by simp) (by simp) rfl).2 (1/2) (by simp)
      (by norm_num [binarize, bothClasses])
      (by norm_num [scoreAt, binarize, recall_score, precision_score,
        countTP, countPos, countPredPos])⟩

/-- Claim C2 counterexample (instantiated at the spec's own ceiling
value 0.75): the code applies no recall ceiling, so it selects a
threshold whose reported recall is 1 > 0.75 although an eligible grid
threshold with recall ≤ 0.75 exists — refuting both disjuncts of the
claim. -/
theorem calibrate_ceiling_counterexample :
    ¬(((calibrate [9/10, 8/10, 7/10, 6/10, 1/10] [true, true, true, true, false]
          [3/10, 13/20]).«recall» ≤ 3/4) ∨
      ((∀ t ∈ ([3/10, 13/20] : List ℚ),
          bothClasses (binarize [9/10, 8/10, 7/10, 6/10, 1/10] t) = true →
          ¬(recall_score [true, true, true, true, false]
              (binarize [9/10, 8/10, 7/10, 6/10, 1/10] t) ≤ 3/4)) ∧
        (calibrate [9/10, 8/10, 7/10, 6/10, 1/10] [true, true, true, true, false]
          [3/10, 13/20]).threshold = 1/2)) := by
  intro h
  rcases h with h1 | ⟨h2, _⟩
  · have hr : (calibrate [9/10, 8/10, 7/10, 6/10, 1/10]
        [true, true, true, true, false] [3/10, 13/20]).«recall» = 1 := by
      norm_num [calibrate, runSearch, stepThresh, binarize, bothClasses,
        scoreAt, recall_score, precision_score, countTP, countPos, countPredPos]
    rw [hr] at h1
    norm_num at h1
  · have hb : bothClasses (binarize [9/10, 8/10, 7/10, 6/10, 1/10]
        ((13:ℚ)/20)) = true := by
      norm_num [binarize, bothClasses]
    have hrec : recall_score [true, true, true, true, false]
        (binarize [9/10, 8/10, 7/10, 6/10, 1/10] ((13:ℚ)/20)) = 3/4 := by
      norm_num [binarize, recall_score, countTP, countPos]
    have hcontra := h2 (13/20) (by simp) hb
    rw [hrec] at hcontra
    exact hcontra (le_refl _)

/-- Claim C2 (amended): the source's threshold search takes no recall
ceiling; eligibility depends only on the predictions containing both
classes, and the chosen threshold's reported recall can exceed 0.75 even
when an eligible grid threshold with recall ≤ 0.75 exists. -/
theorem calibrate_recall_unconstrained :
    ∃ (probs : List ℚ) (labels : List Bool) (grid : List ℚ),
      grid.Sorted (· ≤ ·) ∧
      (∃ t ∈ grid, bothClasses (binarize probs t) = true ∧
        recall_score labels (binarize probs t) ≤ 3/4) ∧
      3/4 < (calibrate probs labels grid).«recall» := by
  refine ⟨[9/10, 8/10, 7/10, 6/10, 1/10], [true, true, true, true, false],
    [3/10, 13/20], by norm_num [List.Sorted], ⟨13/20, by simp, ?_, ?_⟩, ?_⟩
  · norm_num [binarize, bothClasses]
  · norm_num [binarize, recall_score, countTP, countPos]
  · have hr : (calibrate [9/10, 8/10, 7/10, 6/10, 1/10]
        [true, true, true, true, false] [3/10, 13/20]).«recall» = 1 := by
      norm_num [calibrate, runSearch, stepThresh, binarize, bothClasses,
        scoreAt, recall_score, precision_score, countTP, countPos, countPredPos]
    rw [hr]
    norm_num

/-- Claim C3 counterexample: on an empty grid the calibration does not
fail — it returns a complete result (default threshold 0.5, metrics at
0.5), refuting "it does not return a result". -/
theorem calibrate_empty_grid_counterexample :
    calibrate [9/10, 1/10] [true, false] [] =
      { threshold := 1/2, accuracy := 1, precision := 1, «recall» := 1,
        f1 := 1 } := by
  norm_num [calibrate, runSearch, binarize, accuracy_score, precision_score,
    recall_score, f1_score, countTP, countPos, countPredPos]

/-- Claim C3 (amended): if the threshold grid is empty the scan is
skipped and calibration returns the default threshold 0.5 with all four
metrics computed at 0.5; no error is raised. -/
theorem calibrate_empty_grid_default (probs : List ℚ) (labels : List Bool) :
    (calibrate probs labels []).threshold = 1/2 ∧
    (calibrate probs labels []).accuracy =
      accuracy_score labels (binarize probs (1/2)) ∧
    (calibrate probs labels []).precision =
      precision_score labels (binarize probs (1/2)) ∧
    (calibrate probs labels []).«recall» =
      recall_score labels (binarize probs (1/2)) ∧
    (calibrate probs labels []).f1 =
      f1_score labels (binarize probs (1/2)) :=
  ⟨rfl, rfl, rfl, rfl, rfl⟩

/-- Claim C4: the best-threshold update uses strict improvement, so among
tied maximal-score thresholds of an ascending grid the lowest one is
selected; in particular, of two tied thresholds `t1 < t2` the selection
is `t1` whenever `t1` is the earliest threshold attaining that score. -/
theorem calibrate_tie_break (probs : List ℚ) (labels : List Bool)
    (grid : List ℚ) (hasc : grid.Sorted (· ≤ ·)) (t1 t2 : ℚ)
    (h1 : t1 ∈ grid) (h2 : t2 ∈ grid) (h12 : t1 < t2)
    (hb1 : bothClasses (binarize probs t1) = true)
    (hb2 : bothClasses (binarize probs t2) = true)
    (hties : scoreAt probs labels t2 = scoreAt probs labels t1)
    (hmax : ∀ t ∈ grid, bothClasses (binarize probs t) = true →
      scoreAt probs labels t ≤ scoreAt probs labels t1)
    (hfirst : ∀ t ∈ grid, bothClasses (binarize probs t) = true →
      scoreAt probs labels t = scoreAt probs labels t1 → t1 ≤ t)
    (hpos : 0 < scoreAt probs labels t1) :
    (calibrate probs labels grid).threshold = t1 := by
  rw [calibrate_threshold, runSearch_eq_foldl]
  rw [foldl_first_max probs labels t1 grid ⟨1/2, 0⟩ hasc h1 hb1 hpos hmax hfirst]

/-- Claim C4 witness: two grid thresholds 0.3 < 0.5 binarize to the same
predictions, hence tie at score 1; the lower one is selected. -/
theorem calibrate_tie_break_witness :
    ((3:ℚ)/10 < 1/2) ∧
    scoreAt [9/10, 1/10] [true, false] (1/2) =
      scoreAt [9/10, 1/10] [true, false] (3/10) ∧
    (calibrate [9/10, 1/10] [true, false] [3/10, 1/2]).threshold = 3/10 :=
  ⟨by norm_num,
   by norm_num [scoreAt, binarize, recall_score, precision_score, countTP,
     countPos, countPredPos],
   calibrate_tie_break [9/10, 1/10] [true, false] [3/10, 1/2]
     (by norm_num [List.Sorted]) (3/10) (1/2) (by simp) (by simp)
     (by norm_num)
     (by norm_num [binarize, bothClasses])
     (by norm_num [binarize, bothClasses])
     (by norm_num [scoreAt, binarize, recall_score, precision_score, countTP,
       countPos, countPredPos])
     (by norm_num [List.forall_mem_cons, scoreAt, binarize, bothClasses,
       recall_score, precision_score, countTP, countPos, countPredPos])
     (by norm_num [List.forall_mem_cons, scoreAt, binarize, bothClasses,
       recall_score, precision_score, countTP, countPos, countPredPos])
     (by norm_num [scoreAt, binarize, recall_score, precision_score, countTP,
       countPos, countPredPos])⟩

/-- Claim C5: the returned threshold is always an element of the grid or
the default fallback 0.5. -/
theorem calibrate_threshold_in_grid_or_default (probs : List ℚ)
    (labels : List Bool) (grid : List ℚ) :
    (calibrate probs labels grid).threshold ∈ grid ∨
    (calibrate probs labels grid).threshold = 1/2 := by
  rw [calibrate_threshold, runSearch_eq_foldl]
  rcases foldl_provenance probs labels grid ⟨1/2, 0⟩ with heq | ⟨hmem, _, _, _⟩
  · right
    rw [heq]
  · left
    exact hmem

/-- Claim C6: the result's accuracy, precision, recall and f1 are the
metrics of the full probability sequence binarized once at the chosen
threshold, for every input — in particular with no recall-ceiling or
degenerate-prediction gating applied to them. -/
theorem calibrate_final_metrics_at_threshold (probs : List ℚ)
    (labels : List Bool) (grid : List ℚ) :
    (calibrate probs labels grid).accuracy =
      accuracy_score labels
        (binarize probs (calibrate probs labels grid).threshold) ∧
    (calibrate probs labels grid).precision =
      precision_score labels
        (binarize probs (calibrate probs labels grid).threshold) ∧
    (calibrate probs labels grid).«recall» =
      recall_score labels
        (binarize probs (calibrate probs labels grid).threshold) ∧
    (calibrate probs labels grid).f1 =
      f1_score labels
        (binarize probs (calibrate probs labels grid).threshold) :=
  ⟨rfl, rfl, rfl, rfl⟩

/-- Claim C7 counterexample: with single-class labels that are all
positive, calibration does not return the default 0.5 — an eligible grid
threshold scores positively and is selected. -/
theorem calibrate_single_class_counterexample :
    (∀ l ∈ ([true, true] : List Bool), l = true) ∧
    (calibrate [9/10, 1/10] [true, true] [3/10]).threshold = 3/10 ∧
    (calibrate [9/10, 1/10] [true, true] [3/10]).threshold ≠ 1/2 := by
  have ht : (calibrate [9/10, 1/10] [true, true] [3/10]).threshold = 3/10 := by
    norm_num [calibrate, runSearch, stepThresh, binarize, bothClasses, scoreAt,
      recall_score, precision_score, countTP, countPos, countPredPos]
  refine ⟨by simp, ht, ?_⟩
  rw [ht]
  norm_num

/-- Claim C7 (amended): calibration never raises; ill-defined precision
and recall are reported as 0; and when the labels contain no positive
example the default threshold 0.5 is returned with precision = recall
= 0. (When all labels are positive, an eligible grid threshold may be
selected instead of the default.) -/
theorem calibrate_no_positives_default (probs : List ℚ) (labels : List Bool)
    (grid : List ℚ) (h : ∀ l ∈ labels, l = false) :
    (calibrate probs labels grid).threshold = 1/2 ∧
    (calibrate probs labels grid).precision = 0 ∧
    (calibrate probs labels grid).«recall» = 0 := by
  have hrun : grid.foldl (stepThresh probs labels) ⟨1/2, 0⟩ = ⟨1/2, 0⟩ :=
    foldl_no_update probs labels grid ⟨1/2, 0⟩ (by
      intro t ht hbt
      show scoreAt probs labels t ≤ (0:ℚ)
      unfold scoreAt
      rw [recall_zero_of_no_pos _ _ h, precision_zero_of_no_pos _ _ h]
      norm_num)
  refine ⟨?_, ?_, ?_⟩
  · rw [calibrate_threshold, runSearch_eq_foldl, hrun]
  · show precision_score labels
      (binarize probs (runSearch probs labels grid).best_thresh) = 0
    exact precision_zero_of_no_pos _ _ h
  · show recall_score labels
      (binarize probs (runSearch probs labels grid).best_thresh) = 0
    exact recall_zero_of_no_pos _ _ h

/-- Claim C7 witness: a concrete all-negative label set. -/
theorem calibrate_no_positives_default_witness :
    (∀ l ∈ ([false, false] : List Bool), l = false) ∧
    ((calibrate [9/10, 1/10] [false, false] [3/10]).threshold = 1/2 ∧
     (calibrate [9/10, 1/10] [false, false] [3/10]).precision = 0 ∧
     (calibrate [9/10, 1/10] [false, false] [3/10]).«recall» = 0) :=
  ⟨by simp,
   calibrate_no_positives_default [9/10, 1/10] [false, false] [3/10] (by simp)⟩

/-- Claim C8: recall is antitone in the threshold — for fixed
probabilities and labels, `t1 ≤ t2` implies the recall at `t2` is at most
the recall at `t1`. -/
theorem recall_antitone (probs : List ℚ) (labels : List Bool) (t1 t2 : ℚ)
    (h : t1 ≤ t2) :
    recall_score labels (binarize probs t2) ≤
      recall_score labels (binarize probs t1) := by
  unfold recall_score
  by_cases hp : countPos labels = 0
  · simp [hp]
  · rw [if_neg hp, if_neg hp]
    have hc : (0:ℚ) < (countPos labels : ℚ) := by
      exact_mod_cast Nat.pos_of_ne_zero hp
    exact (div_le_div_iff_of_pos_right hc).mpr
      (by exact_mod_cast countTP_binarize_anti t1 t2 h labels probs)

/-- Claim C8 witness. -/
theorem recall_antitone_witness :
    ((1:ℚ)/2 ≤ 3/4) ∧
    recall_score [true] (binarize [9/10] (3/4)) ≤
      recall_score [true] (binarize [9/10] (1/2)) :=
  ⟨by norm_num, recall_antitone [9/10] [true] (1/2) (3/4) (by norm_num)⟩

/-- Claim C9: at inference time the endpoint labels a fresh probability
with the same binarization rule as calibration (`1` iff
`prob ≥ threshold`), and the confidence equals
`min(|prob − threshold| / max(threshold, ε), 1)` for the fixed
`ε = 0.1 > 0`. -/
theorem predict_binarize_confidence :
    ∃ ε : ℚ, 0 < ε ∧ ∀ (prob thresh : ℚ),
      predictedLabel prob thresh = (if thresh ≤ prob then 1 else 0) ∧
      (predictedLabel prob thresh = 1 ↔ binarize [prob] thresh = [true]) ∧
      confidenceOf prob thresh = min (|prob - thresh| / max thresh ε) 1 := by
  refine ⟨1/10, by norm_num, ?_⟩
  intro prob thresh
  refine ⟨rfl, ?_, rfl⟩
  by_cases h : thresh ≤ prob
  · simp [predictedLabel, binarize, h]
  · simp [predictedLabel, binarize, h]

/-- Claim C10: below 80 °F the heat index is the raw temperature — the
Rothfusz regression is applied only from 80 °F upward. -/
theorem heat_index_identity_below_80 (temp_f humidity : ℚ)
    (h : temp_f < 80) :
    calculate_heat_index temp_f humidity = temp_f := by
  unfold calculate_heat_index
  rw [if_pos h]

/-- Claim C10 witness. -/
theorem heat_index_identity_below_80_witness :
    ((70:ℚ) < 80) ∧ calculate_heat_index 70 50 = 70 :=
  ⟨by norm_num, heat_index_identity_below_80 70 50 (by norm_num)⟩
